import Mathlib

/-!
Verification development for the connect-four websocket server (`src/app.py`).

The server code in `app.py` is embedded shallowly below: each `async` function
becomes a pure Lean function that returns the list of outbound actions it
performs together with the state it leaves behind.  Outbound JSON payloads are
kept structured (`JsonObj`) rather than serialized; Python dicts become
association lists with Python's replace-or-append assignment semantics, and
Python exceptions become explicit `crashed` flags / `Option` results.

The board engine (`connect4.py`) is not part of the sources; it is modelled
from the specification (section 4.1), as marked on the definitions below.
-/

/-- The two players. `connect4.py` is absent from the sources; the spec only
requires two distinguishable player marks, player 1 moving first. -/
inductive Player
  | P1
  | P2
deriving DecidableEq, Repr

/-- Modelled from the spec: the source imports `PLAYER1` from `connect4`,
which is missing; the spec calls this "player-1". -/
def PLAYER1 : Player := Player.P1

/-- Modelled from the spec: the source imports `PLAYER2` from `connect4`,
which is missing; the spec calls this "player-2". -/
def PLAYER2 : Player := Player.P2

/-- A move record `(player, column, row)`; the spec: "row is derived, never
supplied by the caller". -/
structure Move where
  player : Player
  col : Nat
  row : Nat
deriving DecidableEq, Repr

/-- Modelled from the spec: board width (standard connect-four grid;
the spec fixes only "fixed-width"). -/
def WIDTH : Nat := 7

/-- Modelled from the spec: board height. -/
def HEIGHT : Nat := 6

/-- Modelled from the spec: the `Connect4` game object of the missing
`connect4.py`: an append-only ordered log of move records plus the optional
winner ("set at most once, never cleared").  The grid contents are derived
from the move log. -/
structure Connect4 where
  moves : List Move
  winner : Option Player
deriving DecidableEq, Repr

/-- A fresh game: empty log, no winner. -/
def Connect4.init : Connect4 := ⟨[], none⟩

/-- Whether the cell at column `c`, row `r` holds a mark, derived from the
move log. -/
def occupied (moves : List Move) (c r : Nat) : Bool :=
  moves.any fun m => m.col == c && m.row == r

/-- Number of marks placed in column `c`. -/
def colCount (moves : List Move) (c : Nat) : Nat :=
  (moves.filter fun m => m.col == c).length

/-- Modelled from the spec: "Current player: alternates strictly between
player-1 and player-2, starting with player-1". -/
def currentPlayer (g : Connect4) : Player :=
  if g.moves.length % 2 = 0 then Player.P1 else Player.P2

/-- The lowest empty row of column `c` (gravity), or `none` when the column
is full. -/
def lowestEmpty (moves : List Move) (c : Nat) : Option Nat :=
  (List.range HEIGHT).find? fun r => !occupied moves c r

/-- Whether the (possibly out-of-grid) integer coordinates `(c, r)` hold a
mark of player `p`. -/
def cellIs (moves : List Move) (p : Player) (c r : Int) : Bool :=
  moves.any fun m => m.player == p && ((m.col : Int) == c) && ((m.row : Int) == r)

/-- Number of consecutive marks of `p` starting one step from `(c, r)` in
direction `(dc, dr)`, looking at most `n` cells. -/
def countDir (moves : List Move) (p : Player) (dc dr : Int) : Int → Int → Nat → Nat
  | _, _, 0 => 0
  | c, r, n + 1 =>
    if cellIs moves p (c + dc) (r + dr) then
      1 + countDir moves p dc dr (c + dc) (r + dr) n
    else 0

/-- Modelled from the spec: win detection "check four line directions
(horizontal, vertical, both diagonals) for four-in-a-row of the mover's mark
passing through the just-played cell". -/
def winsAt (moves : List Move) (p : Player) (c r : Nat) : Bool :=
  [((1 : Int), (0 : Int)), (0, 1), (1, 1), (1, -1)].any fun d =>
    decide (4 ≤ 1 + countDir moves p d.1 d.2 c r 3 + countDir moves p (-d.1) (-d.2) c r 3)

/-- Modelled from the spec: `connect4.py` is missing from the sources.
Section 4.1: "play(player, column) → row: fails with IllegalMove if it is not
player's turn, if column is out of bounds, if the column is full, or if the
game already has a winner.  On success: places the mark in the lowest empty
row of column, advances turn, and evaluates win/draw."  A Python `ValueError`
becomes `Except.error`. -/
def Connect4.play (g : Connect4) (player : Player) (column : Int) :
    Except String (Nat × Connect4) :=
  if player ≠ currentPlayer g then .error "It is not your turn."
  else if column < 0 ∨ (WIDTH : Int) ≤ column then .error "Column is out of bounds."
  else
    match lowestEmpty g.moves column.toNat with
    | none => .error "This column is full."
    | some row =>
      if g.winner.isSome then .error "The game is already over."
      else
        let moves2 := g.moves ++ [⟨player, column.toNat, row⟩]
        .ok (row, ⟨moves2, if winsAt moves2 player column.toNat row then some player else g.winner⟩)

/-- Game states reachable from the initial game by legal moves. -/
inductive Reachable : Connect4 → Prop
  | init : Reachable Connect4.init
  | step {g : Connect4} {p : Player} {c : Int} {row : Nat} {g' : Connect4} :
      Reachable g → Connect4.play g p c = .ok (row, g') → Reachable g'

/-- Structured JSON values appearing in the protocol payloads. -/
inductive JsonVal
  | str : String → JsonVal
  | num : Int → JsonVal
deriving DecidableEq, Repr

/-- A parsed JSON object, as Python's `json.loads` returns for the protocol
messages: an insertion-ordered dictionary. -/
abbrev JsonObj := List (String × JsonVal)

/-- Python dict assignment `d[k] = v`: replace in place when the key exists,
append otherwise. -/
def dictSet {α : Type} : List (String × α) → String → α → List (String × α)
  | [], k, v => [(k, v)]
  | (k', v') :: t, k, v => if k' = k then (k, v) :: t else (k', v') :: dictSet t k v

/-- Python dict lookup `d[q]` (`none` models a `KeyError`). -/
def dictGet {α : Type} : List (String × α) → String → Option α
  | [], _ => none
  | (k', v') :: t, q => if k' = q then some v' else dictGet t q

/-- Python `del d[k]`: `none` models the `KeyError` raised when the key is
absent (the dict is then left unchanged). -/
def dictDel {α : Type} : List (String × α) → String → Option (List (String × α))
  | [], _ => none
  | (k', v') :: t, k => if k' = k then some t else (dictDel t k).map fun t' => (k', v') :: t'

/-- Serialization of a player mark into an event payload. -/
def playerVal : Player → JsonVal
  | Player.P1 => .str "player1"
  | Player.P2 => .str "player2"

/-- The `error` event built by `error(websocket, message)` (app.py lines 19-24). -/
def errorEvent (msg : String) : JsonObj :=
  [("type", .str "error"), ("message", .str msg)]

/-- The `init` event sent to the creator (app.py lines 93-97). -/
def initEvent (jk wk : String) : JsonObj :=
  [("type", .str "init"), ("join", .str jk), ("watch", .str wk)]

/-- A replayed `play` event (app.py lines 51-56). -/
def playEventOf (m : Move) : JsonObj :=
  [("type", .str "play"), ("player", playerVal m.player),
   ("column", .num m.col), ("row", .num m.row)]

/-- The `win` event (app.py lines 131-134). -/
def winEvent (p : Player) : JsonObj :=
  [("type", .str "win"), ("player", playerVal p)]

/-- The event broadcast for a legal move (app.py lines 122-124): the mover's
own parsed message with `type`, `player` and `row` assigned, in that order. -/
def buildPlayEvent (e : JsonObj) (p : Player) (row : Nat) : JsonObj :=
  dictSet (dictSet (dictSet e "type" (.str "play")) "player" (playerVal p)) "row" (.num row)

/-- An outbound network effect: a targeted `websocket.send` or a
`broadcast(connected, ...)` to the subscriber set captured at call time. -/
inductive NetAct
  | send (ws : Nat) (ev : JsonObj)
  | broadcastTo (ws : List Nat) (ev : JsonObj)
deriving DecidableEq, Repr

/-- An inbound frame after `json.loads`: either unparseable (`json.loads`
raises) or a JSON object. -/
inductive Parsed
  | malformed
  | obj (o : JsonObj)
deriving DecidableEq, Repr

/-- One game session: the shared `(game, connected)` pair that both registry
entries alias (app.py lines 81-88). Connections are identified by numbers. -/
structure Session where
  game : Connect4
  connected : List Nat
deriving DecidableEq, Repr

/-- The process-wide mutable state: the `JOIN` and `WATCH` dicts (app.py
lines 16-17), mapping token strings to session indices, plus the store of
live sessions that the dict entries alias into. -/
structure ServerState where
  JOIN : List (String × Nat)
  WATCH : List (String × Nat)
  sessions : List Session
deriving DecidableEq, Repr

/-- Dereference a session index (registry entries only ever hold live
indices; a dangling index yields a dummy empty session). -/
def getSess (s : ServerState) (i : Nat) : Session :=
  s.sessions.getD i ⟨Connect4.init, []⟩

/-- Update the session at index `i` (mutation of the shared session object). -/
def updSess : List Session → Nat → (Session → Session) → List Session
  | [], _, _ => []
  | x :: t, 0, f => f x :: t
  | x :: t, n + 1, f => x :: updSess t n f

/-- Python `set.add`: insert if absent. -/
def addConn (l : List Nat) (ws : Nat) : List Nat :=
  if ws ∈ l then l else l ++ [ws]

/-- Python `set.remove` on a set known to contain the element. -/
def removeConn (l : List Nat) (ws : Nat) : List Nat :=
  l.filter fun x => x != ws

/-- One iteration of the `play` loop body (app.py lines 107-135) on one
inbound frame.  Returns the outbound actions and either the game after the
step (`some`) or `none` when an uncaught exception (`json.loads` failure,
failed `assert`, missing `column` key, non-integer column) aborts the loop. -/
def playStep (ws : Nat) (g : Connect4) (p : Player) (connected : List Nat) :
    Parsed → List NetAct × Option Connect4
  | .malformed => ([], none)
  | .obj e =>
    if dictGet e "type" = some (JsonVal.str "play") then
      match dictGet e "column" with
      | some (JsonVal.num col) =>
        match g.play p col with
        | .error msg => ([NetAct.send ws (errorEvent msg)], some g)
        | .ok (row, g') =>
          (NetAct.broadcastTo connected (buildPlayEvent e p row) ::
            (match g'.winner with
             | some w => [NetAct.broadcastTo connected (winEvent w)]
             | none => []),
           some g')
      | _ => ([], none)
    else ([], none)

/-- The `play` loop (app.py lines 106-135) over a whole inbound stream: the
actions performed, the final game, and whether the loop ended by raising. -/
def playLoop (ws : Nat) (p : Player) (connected : List Nat) :
    Connect4 → List Parsed → List NetAct × Connect4 × Bool
  | g, [] => ([], g, false)
  | g, m :: rest =>
    match playStep ws g p connected m with
    | (acts, none) => (acts, g, true)
    | (acts, some g') =>
      let r := playLoop ws p connected g' rest
      (acts ++ r.1, r.2)

/-- `join(websocket, join_key)` (app.py lines 26-43): resolve the key in
`JOIN`; on `KeyError` send "Game not found"; otherwise add to the subscriber
set, replay the recorded moves, run the player-2 `play` loop over the
connection's inbound stream, and in the `finally` remove the connection from
the subscriber set.  Returns (state, actions, raised). -/
def joinRun (ws : Nat) (key : String) (msgs : List Parsed) (s : ServerState) :
    ServerState × List NetAct × Bool :=
  match dictGet s.JOIN key with
  | none => (s, [NetAct.send ws (errorEvent "Game not found")], false)
  | some sid =>
    let sess := getSess s sid
    let conn1 := addConn sess.connected ws
    let r := playLoop ws PLAYER2 conn1 sess.game msgs
    ({ s with sessions := updSess s.sessions sid fun _ => ⟨r.2.1, removeConn conn1 ws⟩ },
     sess.game.moves.map (fun m => NetAct.send ws (playEventOf m)) ++ r.1,
     r.2.2)

/-- `watch(websocket, watch_key)` (app.py lines 59-76): note that the source
resolves the watch key in the `JOIN` dict (line 62).  On success: subscribe,
replay, then `wait_closed()` (inbound frames are never read), and in the
`finally` remove the connection from the subscriber set. -/
def watchRun (ws : Nat) (key : String) (s : ServerState) :
    ServerState × List NetAct :=
  match dictGet s.JOIN key with
  | none => (s, [NetAct.send ws (errorEvent "Game not found")])
  | some sid =>
    let sess := getSess s sid
    let conn1 := addConn sess.connected ws
    ({ s with sessions := updSess s.sessions sid fun x => ⟨x.game, removeConn conn1 ws⟩ },
     sess.game.moves.map fun m => NetAct.send ws (playEventOf m))

/-- The set-up part of `start(websocket)` (app.py lines 81-98): fresh game,
subscriber set `{websocket}`, and registration of BOTH tokens in the `JOIN`
dict (lines 85 and 88 both assign into `JOIN`); then the init event is sent.
The fresh random tokens are passed in as parameters.
Returns (state, session index, actions). -/
def startSetup (ws : Nat) (jk wk : String) (s : ServerState) :
    ServerState × Nat × List NetAct :=
  let sid := s.sessions.length
  ({ s with
      JOIN := dictSet (dictSet s.JOIN jk sid) wk sid,
      sessions := s.sessions ++ [⟨Connect4.init, [ws]⟩] },
   sid, [NetAct.send ws (initEvent jk wk)])

/-- The `finally` block of `start` (app.py lines 102-104):
`del JOIN[join_key]` then `del WATCH[watch_key]`; a `KeyError` from either
aborts the block (the second deletion is skipped / the dict left unchanged).
Returns (state, raised). -/
def startFinally (jk wk : String) (s : ServerState) : ServerState × Bool :=
  match dictDel s.JOIN jk with
  | none => (s, true)
  | some j' =>
    match dictDel s.WATCH wk with
    | none => ({ s with JOIN := j' }, true)
    | some w' => ({ s with JOIN := j', WATCH := w' }, false)

/-- `start(websocket)` in full (app.py lines 78-104): set-up, the player-1
`play` loop over the creator's inbound stream, then the `finally` block.
Returns (state, actions, raised). -/
def startRun (ws : Nat) (jk wk : String) (msgs : List Parsed) (s : ServerState) :
    ServerState × List NetAct × Bool :=
  let t := startSetup ws jk wk s
  let r := playLoop ws PLAYER1 [ws] Connect4.init msgs
  let s2 := { t.1 with sessions := updSess t.1.sessions t.2.1 fun x => ⟨r.2.1, x.connected⟩ }
  let f := startFinally jk wk s2
  (f.1, t.2.2 ++ r.1, r.2.2 || f.2)

/-- Outcome of a connection handler: completed, or terminated by an uncaught
exception (Python closes the websocket with an internal error, sending no
protocol event). -/
inductive Outcome
  | finished
  | crashed
deriving DecidableEq, Repr

/-- `handler(websocket)` (app.py lines 138-151): read the first frame,
`json.loads` it, `assert event["type"] == "init"` (a missing key or a
different type raises), then dispatch on the presence of a `join` or `watch`
field; with neither, start a new game (fresh tokens `jk`, `wk`).  A non-string
token value can match no string key of the registry, so it takes the
"Game not found" path.  Returns (state, actions, outcome). -/
def handlerRun (ws : Nat) (first : Parsed) (msgs : List Parsed) (jk wk : String)
    (s : ServerState) : ServerState × List NetAct × Outcome :=
  match first with
  | .malformed => (s, [], .crashed)
  | .obj e =>
    if dictGet e "type" = some (JsonVal.str "init") then
      match dictGet e "join" with
      | some (JsonVal.str t) =>
        let r := joinRun ws t msgs s
        (r.1, r.2.1, if r.2.2 then .crashed else .finished)
      | some _ => (s, [NetAct.send ws (errorEvent "Game not found")], .finished)
      | none =>
        match dictGet e "watch" with
        | some (JsonVal.str t) =>
          let r := watchRun ws t s
          (r.1, r.2, .finished)
        | some _ => (s, [NetAct.send ws (errorEvent "Game not found")], .finished)
        | none =>
          let r := startRun ws jk wk msgs s
          (r.1, r.2.1, if r.2.2 then .crashed else .finished)
    else (s, [], .crashed)

/-- Whether a first frame is a well-formed init message: it parses and its
`type` field is the string `"init"`. -/
def isInitMsg : Parsed → Bool
  | .malformed => false
  | .obj e => dictGet e "type" = some (JsonVal.str "init")

/-- The gravity invariant: a cell is occupied exactly when its row is below
the number of marks in its column (columns fill bottom-up without gaps). -/
def GravityInv (g : Connect4) : Prop :=
  ∀ c r, occupied g.moves c r = true ↔ r < colCount g.moves c ∧ r < HEIGHT

/-- The empty initial server state. -/
def s0 : ServerState := ⟨[], [], []⟩

/-- Decidable equality of `Except` results, used to evaluate the model on
concrete inputs. -/
instance {α β : Type} [DecidableEq α] [DecidableEq β] : DecidableEq (Except α β) := fun x y =>
  match x, y with
  | .error a, .error b => if h : a = b then .isTrue (by rw [h]) else .isFalse (by simp [h])
  | .ok a, .ok b => if h : a = b then .isTrue (by rw [h]) else .isFalse (by simp [h])
  | .error _, .ok _ => .isFalse (by simp)
  | .ok _, .error _ => .isFalse (by simp)

/-- Concrete game after player 1 dropped a mark in column 0. -/
def gOne : Connect4 := ⟨[⟨Player.P1, 0, 0⟩], none⟩

/-- Concrete server state mid-session: both tokens registered in `JOIN`
(as `start` does), one recorded move, the creator subscribed. -/
def sMid : ServerState := ⟨[("J", 0), ("W", 0)], [], [⟨gOne, [0]⟩]⟩

/-- A concrete inbound play message for column 0. -/
def playMsg0 : Parsed := Parsed.obj [("type", JsonVal.str "play"), ("column", JsonVal.num 0)]

/-- Concrete game with two recorded moves. -/
def gTwo : Connect4 := ⟨[⟨Player.P1, 0, 0⟩, ⟨Player.P2, 1, 0⟩], none⟩

/-- Concrete server state with a joinable two-move session. -/
def sTwo : ServerState := ⟨[("J", 0)], [], [⟨gTwo, [9]⟩]⟩

/-- Concrete server state used for the cleanup witness. -/
def sOneConn : ServerState := ⟨[("K", 0)], [("U", 7)], [⟨Connect4.init, [3]⟩]⟩

theorem dictGet_dictSet_self {α : Type} (d : List (String × α)) (k : String) (v : α) :
    dictGet (dictSet d k v) k = some v := by
  induction d with
  | nil => simp [dictSet, dictGet]
  | cons a t ih =>
    obtain ⟨k', v'⟩ := a
    by_cases h : k' = k
    · simp [dictSet, dictGet, h]
    · simp [dictSet, dictGet, h, ih]

theorem dictGet_dictSet_ne {α : Type} (d : List (String × α)) (k q : String) (v : α)
    (h : q ≠ k) :
    dictGet (dictSet d k v) q = dictGet d q := by
  have hk : k ≠ q := Ne.symm h
  induction d with
  | nil => simp [dictSet, dictGet, hk]
  | cons a t ih =>
    obtain ⟨k', v'⟩ := a
    by_cases h2 : k' = k
    · subst h2
      simp [dictSet, dictGet, hk]
    · by_cases h3 : k' = q
      · simp [dictSet, dictGet, h2, h3, h]
      · simp [dictSet, dictGet, h2, h3, ih]

theorem take_len_append {α : Type} (l1 l2 : List α) : (l1 ++ l2).take l1.length = l1 := by
  induction l1 with
  | nil => rfl
  | cons a t ih => simp [ih]

theorem getD_updSess (l : List Session) (i : Nat) (f : Session → Session) (d : Session)
    (h : i < l.length) :
    (updSess l i f).getD i d = f (l.getD i d) := by
  induction l generalizing i with
  | nil => simp at h
  | cons a t ih =>
    cases i with
    | zero => simp [updSess]
    | succ n => simpa [updSess] using ih n (Nat.lt_of_succ_lt_succ h)

theorem updSess_length_le (l : List Session) (i : Nat) (f : Session → Session)
    (h : l.length ≤ i) :
    updSess l i f = l := by
  induction l generalizing i with
  | nil => cases i <;> rfl
  | cons a t ih =>
    cases i with
    | zero => simp at h
    | succ n => simp [updSess, ih n (Nat.le_of_succ_le_succ h)]

theorem getD_append_length {α : Type} (l : List α) (x d : α) :
    (l ++ [x]).getD l.length d = x := by
  induction l with
  | nil => rfl
  | cons a t ih => simp [ih]

theorem not_mem_removeConn (l : List Nat) (ws : Nat) : ws ∉ removeConn l ws := by
  simp [removeConn, List.mem_filter]

theorem startFinally_sessions (jk wk : String) (s : ServerState) :
    (startFinally jk wk s).1.sessions = s.sessions := by
  cases hj : dictDel s.JOIN jk with
  | none => simp [startFinally, hj]
  | some j2 =>
    cases hw : dictDel s.WATCH wk with
    | none => simp [startFinally, hj, hw]
    | some w2 => simp [startFinally, hj, hw]

/-- C1: the claim that destroying a Session invalidates both tokens fails on
the code: `start` registers the watch key in `JOIN` (line 88) but its cleanup
deletes it from `WATCH` (line 104), which raises `KeyError`; the watch entry
survives in `JOIN` and the watch token still resolves after the creator's
handler has exited, while the join token correctly stops resolving. -/
theorem C1_watch_token_survives_destroy :
    (startRun 0 "J" "W" [] s0).2.2 = true ∧
    dictGet (startRun 0 "J" "W" [] s0).1.JOIN "J" = none ∧
    dictGet (startRun 0 "J" "W" [] s0).1.JOIN "W" = some 0 ∧
    (startRun 0 "J" "W" [] s0).1.WATCH = [] ∧
    (watchRun 1 "W" (startRun 0 "J" "W" [] s0).1).2 = [] := by
  decide

/-- C2: the claim that the join and watch token namespaces are independent
fails on the code: both tokens are stored in the `JOIN` dict, so presenting
the watch token on the join path resolves to the session (no "Game not
found") and a player-2 move submitted through it is accepted and broadcast. -/
theorem C2_watch_token_grants_join :
    dictGet (startSetup 0 "J" "W" s0).1.JOIN "W" = some 0 ∧
    (joinRun 1 "W" [] (startSetup 0 "J" "W" s0).1).2 = ([], false) ∧
    Connect4.play Connect4.init Player.P1 0 = Except.ok (0, gOne) ∧
    (startSetup 0 "J" "W" s0).1.sessions = [⟨Connect4.init, [0]⟩] ∧
    (joinRun 2 "W" [playMsg0] sMid).2.1 =
      [NetAct.send 2 (playEventOf ⟨Player.P1, 0, 0⟩),
       NetAct.broadcastTo [0, 2]
         (buildPlayEvent [("type", JsonVal.str "play"), ("column", JsonVal.num 0)]
           Player.P2 1)] := by
  decide

/-- C3 counterexample: a first message of type `"play"` (not a well-formed
init) makes the handler fail its `assert` and terminate with an uncaught
exception, emitting no event at all — in particular no error event, contrary
to the claim. -/
theorem C3_counterexample :
    handlerRun 0 (Parsed.obj [("type", JsonVal.str "play")]) [] "J" "W" s0 =
      (s0, [], Outcome.crashed) := by
  decide

/-- C3 (amended): for every connection whose first inbound message is not a
well-formed init message, the handler terminates with an uncaught exception
(`json.loads` failure or failed `assert`) without emitting any event — no
error event is sent, but the connection does not hang: it is closed. -/
theorem C3_malformed_init_crashes_silently (ws : Nat) (first : Parsed)
    (msgs : List Parsed) (jk wk : String) (s : ServerState)
    (h : isInitMsg first = false) :
    handlerRun ws first msgs jk wk s = (s, [], Outcome.crashed) := by
  cases first with
  | malformed => rfl
  | obj e =>
    have h2 : ¬ dictGet e "type" = some (JsonVal.str "init") := by
      simpa [isInitMsg] using h
    simp [handlerRun, h2]

theorem C3_malformed_init_crashes_silently_witness :
    isInitMsg (Parsed.obj [("column", JsonVal.num 3)]) = false ∧
    handlerRun 5 (Parsed.obj [("column", JsonVal.num 3)]) [] "J" "W" s0 =
      (s0, [], Outcome.crashed) :=
  ⟨by decide, C3_malformed_init_crashes_silently 5 _ [] "J" "W" s0 (by decide)⟩

/-- C4: a connection attaching to a session with N recorded moves is sent
exactly N replay play-events — one per recorded move, in log order, each once
(the action trace on the replay segment IS the move log mapped to events) —
before any action produced by relaying that connection's own input; the
watcher path replays identically. -/
theorem C4_replay_before_live (ws : Nat) (key : String) (msgs : List Parsed)
    (s : ServerState) (sid : Nat) (h : dictGet s.JOIN key = some sid) :
    (joinRun ws key msgs s).2.1 =
      (getSess s sid).game.moves.map (fun m => NetAct.send ws (playEventOf m)) ++
        (playLoop ws PLAYER2 (addConn (getSess s sid).connected ws)
          (getSess s sid).game msgs).1 ∧
    ((joinRun ws key msgs s).2.1).take (getSess s sid).game.moves.length =
      (getSess s sid).game.moves.map (fun m => NetAct.send ws (playEventOf m)) ∧
    (watchRun ws key s).2 =
      (getSess s sid).game.moves.map (fun m => NetAct.send ws (playEventOf m)) := by
  have hja : (joinRun ws key msgs s).2.1 =
      (getSess s sid).game.moves.map (fun m => NetAct.send ws (playEventOf m)) ++
        (playLoop ws PLAYER2 (addConn (getSess s sid).connected ws)
          (getSess s sid).game msgs).1 := by
    simp [joinRun, h]
  refine ⟨hja, ?_, by simp [watchRun, h]⟩
  rw [hja]
  have hlen : (getSess s sid).game.moves.length =
      ((getSess s sid).game.moves.map (fun m => NetAct.send ws (playEventOf m))).length := by
    simp
  rw [hlen]
  exact take_len_append _ _

theorem C4_replay_before_live_witness :
    (joinRun 7 "J" [] sTwo).2.1 =
      (getSess sTwo 0).game.moves.map (fun m => NetAct.send 7 (playEventOf m)) ++
        (playLoop 7 PLAYER2 (addConn (getSess sTwo 0).connected 7)
          (getSess sTwo 0).game []).1 ∧
    ((joinRun 7 "J" [] sTwo).2.1).take (getSess sTwo 0).game.moves.length =
      (getSess sTwo 0).game.moves.map (fun m => NetAct.send 7 (playEventOf m)) ∧
    (watchRun 7 "J" sTwo).2 =
      (getSess sTwo 0).game.moves.map (fun m => NetAct.send 7 (playEventOf m)) :=
  C4_replay_before_live 7 "J" [] sTwo 0 (by decide)

/-- C5: an illegal move yields a single error event to the sending
connection, nothing is broadcast, the game state is unchanged, and the loop
goes on to process the remaining messages in the same state. -/
theorem C5_illegal_move_error_to_sender_only (ws : Nat) (g : Connect4) (p : Player)
    (connected : List Nat) (e : JsonObj) (col : Int) (msg : String) (rest : List Parsed)
    (htype : dictGet e "type" = some (JsonVal.str "play"))
    (hcol : dictGet e "column" = some (JsonVal.num col))
    (herr : Connect4.play g p col = Except.error msg) :
    playStep ws g p connected (Parsed.obj e) = ([NetAct.send ws (errorEvent msg)], some g) ∧
    playLoop ws p connected g (Parsed.obj e :: rest) =
      (NetAct.send ws (errorEvent msg) :: (playLoop ws p connected g rest).1,
       (playLoop ws p connected g rest).2) := by
  have hstep : playStep ws g p connected (Parsed.obj e) =
      ([NetAct.send ws (errorEvent msg)], some g) := by
    simp [playStep, htype, hcol, herr]
  exact ⟨hstep, by simp [playLoop, hstep]⟩

theorem C5_illegal_move_error_to_sender_only_witness :
    playStep 0 Connect4.init Player.P1 [0]
        (Parsed.obj [("type", JsonVal.str "play"), ("column", JsonVal.num 9)]) =
      ([NetAct.send 0 (errorEvent "Column is out of bounds.")], some Connect4.init) ∧
    playLoop 0 Player.P1 [0] Connect4.init
        [Parsed.obj [("type", JsonVal.str "play"), ("column", JsonVal.num 9)]] =
      (NetAct.send 0 (errorEvent "Column is out of bounds.") ::
        (playLoop 0 Player.P1 [0] Connect4.init []).1,
       (playLoop 0 Player.P1 [0] Connect4.init []).2) :=
  C5_illegal_move_error_to_sender_only 0 Connect4.init Player.P1 [0]
    [("type", JsonVal.str "play"), ("column", JsonVal.num 9)] 9
    "Column is out of bounds." [] (by decide) (by decide) (by rfl)

/-- C6: a legal move is broadcast — not sent individually — to the subscriber
set captured at the call, which contains the mover; the event carries the
server-assigned `type`, `player` and `row` fields and the move's column; and
when the move produced a winner the win broadcast follows immediately. -/
theorem C6_legal_move_broadcast (ws : Nat) (g : Connect4) (p : Player)
    (connected : List Nat) (e : JsonObj) (col : Int) (row : Nat) (g' : Connect4)
    (htype : dictGet e "type" = some (JsonVal.str "play"))
    (hcol : dictGet e "column" = some (JsonVal.num col))
    (hok : Connect4.play g p col = Except.ok (row, g'))
    (hmem : ws ∈ connected) :
    playStep ws g p connected (Parsed.obj e) =
      (NetAct.broadcastTo connected (buildPlayEvent e p row) ::
        (match g'.winner with
         | some w => [NetAct.broadcastTo connected (winEvent w)]
         | none => []),
       some g') ∧
    ws ∈ connected ∧
    dictGet (buildPlayEvent e p row) "type" = some (JsonVal.str "play") ∧
    dictGet (buildPlayEvent e p row) "player" = some (playerVal p) ∧
    dictGet (buildPlayEvent e p row) "row" = some (JsonVal.num row) ∧
    dictGet (buildPlayEvent e p row) "column" = some (JsonVal.num col) := by
  refine ⟨by simp [playStep, htype, hcol, hok], hmem, ?_, ?_, ?_, ?_⟩
  · rw [buildPlayEvent, dictGet_dictSet_ne _ _ _ _ (by decide),
      dictGet_dictSet_ne _ _ _ _ (by decide), dictGet_dictSet_self]
  · rw [buildPlayEvent, dictGet_dictSet_ne _ _ _ _ (by decide), dictGet_dictSet_self]
  · rw [buildPlayEvent, dictGet_dictSet_self]
  · rw [buildPlayEvent, dictGet_dictSet_ne _ _ _ _ (by decide),
      dictGet_dictSet_ne _ _ _ _ (by decide), dictGet_dictSet_ne _ _ _ _ (by decide), hcol]

theorem C6_legal_move_broadcast_witness :
    playStep 0 Connect4.init Player.P1 [0, 1]
        (Parsed.obj [("type", JsonVal.str "play"), ("column", JsonVal.num 0)]) =
      (NetAct.broadcastTo [0, 1]
          (buildPlayEvent [("type", JsonVal.str "play"), ("column", JsonVal.num 0)]
            Player.P1 0) ::
        (match gOne.winner with
         | some w => [NetAct.broadcastTo [0, 1] (winEvent w)]
         | none => []),
       some gOne) ∧
    0 ∈ [0, 1] ∧
    dictGet (buildPlayEvent [("type", JsonVal.str "play"), ("column", JsonVal.num 0)]
        Player.P1 0) "type" = some (JsonVal.str "play") ∧
    dictGet (buildPlayEvent [("type", JsonVal.str "play"), ("column", JsonVal.num 0)]
        Player.P1 0) "player" = some (playerVal Player.P1) ∧
    dictGet (buildPlayEvent [("type", JsonVal.str "play"), ("column", JsonVal.num 0)]
        Player.P1 0) "row" = some (JsonVal.num 0) ∧
    dictGet (buildPlayEvent [("type", JsonVal.str "play"), ("column", JsonVal.num 0)]
        Player.P1 0) "column" = some (JsonVal.num 0) :=
  C6_legal_move_broadcast 0 Connect4.init Player.P1 [0, 1]
    [("type", JsonVal.str "play"), ("column", JsonVal.num 0)] 0 0 gOne
    (by decide) (by decide) (by rfl) (by decide)

/-- C7: a connection that attached through `join` or `watch` is, on every
exit path of that handler (the inbound stream `msgs` is arbitrary, covering
normal close, peer disconnect and uncaught errors), absent from the session's
subscriber set afterwards, and the `JOIN` and `WATCH` registries are exactly
as before: a joiner or watcher closing never destroys registry entries. -/
theorem C7_close_releases_subscription (ws1 ws2 : Nat) (k1 k2 : String)
    (msgs : List Parsed) (s1 s2 : ServerState) (sid1 sid2 : Nat)
    (h1 : dictGet s1.JOIN k1 = some sid1)
    (h2 : dictGet s2.JOIN k2 = some sid2) :
    ((joinRun ws1 k1 msgs s1).1.JOIN = s1.JOIN ∧
     (joinRun ws1 k1 msgs s1).1.WATCH = s1.WATCH ∧
     ws1 ∉ (getSess (joinRun ws1 k1 msgs s1).1 sid1).connected) ∧
    ((watchRun ws2 k2 s2).1.JOIN = s2.JOIN ∧
     (watchRun ws2 k2 s2).1.WATCH = s2.WATCH ∧
     ws2 ∉ (getSess (watchRun ws2 k2 s2).1 sid2).connected) := by
  constructor
  · refine ⟨by simp [joinRun, h1], by simp [joinRun, h1], ?_⟩
    simp only [joinRun, h1, getSess]
    by_cases hlt : sid1 < s1.sessions.length
    · rw [getD_updSess _ _ _ _ hlt]
      exact not_mem_removeConn _ _
    · rw [updSess_length_le _ _ _ (Nat.le_of_not_lt hlt),
        List.getD_eq_default _ _ (Nat.le_of_not_lt hlt)]
      simp
  · refine ⟨by simp [watchRun, h2], by simp [watchRun, h2], ?_⟩
    simp only [watchRun, h2, getSess]
    by_cases hlt : sid2 < s2.sessions.length
    · rw [getD_updSess _ _ _ _ hlt]
      exact not_mem_removeConn _ _
    · rw [updSess_length_le _ _ _ (Nat.le_of_not_lt hlt),
        List.getD_eq_default _ _ (Nat.le_of_not_lt hlt)]
      simp

theorem C7_close_releases_subscription_witness :
    ((joinRun 5 "K" [Parsed.malformed] sOneConn).1.JOIN = sOneConn.JOIN ∧
     (joinRun 5 "K" [Parsed.malformed] sOneConn).1.WATCH = sOneConn.WATCH ∧
     5 ∉ (getSess (joinRun 5 "K" [Parsed.malformed] sOneConn).1 0).connected) ∧
    ((watchRun 6 "K" sOneConn).1.JOIN = sOneConn.JOIN ∧
     (watchRun 6 "K" sOneConn).1.WATCH = sOneConn.WATCH ∧
     6 ∉ (getSess (watchRun 6 "K" sOneConn).1 0).connected) :=
  C7_close_releases_subscription 5 6 "K" "K" [Parsed.malformed] sOneConn sOneConn 0 0
    (by decide) (by decide)

/-- C9: `start`'s cleanup only touches the registries — it never unsubscribes
the creator: the session store is unchanged by `startFinally`, and after the
whole `start` run (including cleanup) the creator's websocket is still a
member of its session's `connected` set. -/
theorem C9_creator_never_unsubscribed (ws : Nat) (jk wk : String) (msgs : List Parsed)
    (s : ServerState) :
    (startFinally jk wk s).1.sessions = s.sessions ∧
    ws ∈ (getSess (startRun ws jk wk msgs s).1 s.sessions.length).connected := by
  refine ⟨startFinally_sessions jk wk s, ?_⟩
  simp only [startRun, startSetup, getSess]
  rw [startFinally_sessions]
  rw [getD_updSess _ _ _ _ (by simp)]
  rw [getD_append_length]
  simp

/-- C10: the broadcast play event is the mover's own parsed object: the head
action of a legal-move step broadcasts `buildPlayEvent e p row`, which agrees
with the inbound object `e` on every key other than `type`, `player` and
`row` — in particular the client's `column` value and any extra fields are
forwarded verbatim to all subscribers. -/
theorem C10_client_fields_forwarded (ws : Nat) (g : Connect4) (p : Player)
    (connected : List Nat) (e : JsonObj) (col : Int) (row : Nat) (g' : Connect4)
    (k : String)
    (htype : dictGet e "type" = some (JsonVal.str "play"))
    (hcol : dictGet e "column" = some (JsonVal.num col))
    (hok : Connect4.play g p col = Except.ok (row, g'))
    (hk1 : k ≠ "type") (hk2 : k ≠ "player") (hk3 : k ≠ "row") :
    (playStep ws g p connected (Parsed.obj e)).1.head? =
      some (NetAct.broadcastTo connected (buildPlayEvent e p row)) ∧
    dictGet (buildPlayEvent e p row) k = dictGet e k ∧
    dictGet (buildPlayEvent e p row) "column" = dictGet e "column" := by
  refine ⟨by simp [playStep, htype, hcol, hok], ?_, ?_⟩
  · rw [buildPlayEvent, dictGet_dictSet_ne _ _ _ _ hk3, dictGet_dictSet_ne _ _ _ _ hk2,
      dictGet_dictSet_ne _ _ _ _ hk1]
  · rw [buildPlayEvent, dictGet_dictSet_ne _ _ _ _ (by decide),
      dictGet_dictSet_ne _ _ _ _ (by decide), dictGet_dictSet_ne _ _ _ _ (by decide)]

theorem C10_client_fields_forwarded_witness :
    (playStep 4 Connect4.init Player.P1 [4]
        (Parsed.obj [("type", JsonVal.str "play"), ("column", JsonVal.num 2),
          ("extra", JsonVal.str "x")])).1.head? =
      some (NetAct.broadcastTo [4]
        (buildPlayEvent [("type", JsonVal.str "play"), ("column", JsonVal.num 2),
          ("extra", JsonVal.str "x")] Player.P1 0)) ∧
    dictGet (buildPlayEvent [("type", JsonVal.str "play"), ("column", JsonVal.num 2),
        ("extra", JsonVal.str "x")] Player.P1 0) "extra" =
      dictGet [("type", JsonVal.str "play"), ("column", JsonVal.num 2),
        ("extra", JsonVal.str "x")] "extra" ∧
    dictGet (buildPlayEvent [("type", JsonVal.str "play"), ("column", JsonVal.num 2),
        ("extra", JsonVal.str "x")] Player.P1 0) "column" =
      dictGet [("type", JsonVal.str "play"), ("column", JsonVal.num 2),
        ("extra", JsonVal.str "x")] "column" :=
  C10_client_fields_forwarded 4 Connect4.init Player.P1 [4]
    [("type", JsonVal.str "play"), ("column", JsonVal.num 2), ("extra", JsonVal.str "x")]
    2 0 ⟨[⟨Player.P1, 2, 0⟩], none⟩ "extra"
    (by decide) (by decide) (by rfl) (by decide) (by decide) (by decide)

theorem range_find?_eq (n k : Nat) (p : Nat → Bool)
    (hp : ∀ r, r < n → (p r = true ↔ k ≤ r)) :
    (List.range n).find? p = if k < n then some k else none := by
  induction n with
  | zero => simp
  | succ m ih =>
    rw [List.range_succ, List.find?_append,
      ih fun r hr => hp r (Nat.lt_succ_of_lt hr)]
    have hm := hp m (Nat.lt_succ_self m)
    by_cases hkm : k < m
    · simp [hkm, Nat.lt_succ_of_lt hkm]
    · simp only [if_neg hkm]
      by_cases hkm2 : k ≤ m
      · have hk : k = m := Nat.le_antisymm hkm2 (Nat.le_of_not_lt hkm)
        subst hk
        simp [List.find?, hm.mpr (Nat.le_refl k), Nat.lt_succ_self]
      · have hpm : p m = false := by
          rw [← Bool.not_eq_true]
          intro hcon
          exact hkm2 (hm.mp hcon)
        simp [List.find?, hpm, Nat.lt_succ_iff, hkm2]

theorem lowestEmpty_lt {moves : List Move} {c row : Nat}
    (h : lowestEmpty moves c = some row) : row < HEIGHT := by
  unfold lowestEmpty at h
  exact List.mem_range.mp (List.mem_of_find?_eq_some h)

theorem lowestEmpty_inv (g : Connect4) (c : Nat) (h : GravityInv g) :
    lowestEmpty g.moves c =
      if colCount g.moves c < HEIGHT then some (colCount g.moves c) else none := by
  unfold lowestEmpty
  apply range_find?_eq
  intro r hr
  constructor
  · intro hb
    by_contra hlt
    have hocc : occupied g.moves c r = true := (h c r).mpr ⟨Nat.not_le.mp hlt, hr⟩
    rw [hocc] at hb
    cases hb
  · intro hk
    have hocc : occupied g.moves c r = false := by
      rw [← Bool.not_eq_true]
      intro hcon
      exact absurd ((h c r).mp hcon).1 (Nat.not_lt.mpr hk)
    rw [hocc]
    rfl

theorem play_ok_inv {g : Connect4} {p : Player} {col : Int} {row : Nat} {g' : Connect4}
    (h : Connect4.play g p col = Except.ok (row, g')) :
    lowestEmpty g.moves col.toNat = some row ∧
    g'.moves = g.moves ++ [⟨p, col.toNat, row⟩] := by
  rw [Connect4.play] at h
  split at h
  · exact Except.noConfusion h
  split at h
  · exact Except.noConfusion h
  split at h
  · exact Except.noConfusion h
  split at h
  · exact Except.noConfusion h
  rename_i row2 heq _
  simp only [Except.ok.injEq, Prod.mk.injEq] at h
  obtain ⟨h1, h2⟩ := h
  subst h1
  subst h2
  exact ⟨heq, rfl⟩

theorem occupied_append (l : List Move) (m : Move) (c r : Nat) :
    occupied (l ++ [m]) c r = (occupied l c r || (m.col == c && m.row == r)) := by
  simp [occupied]

theorem colCount_append (l : List Move) (m : Move) (c : Nat) :
    colCount (l ++ [m]) c = colCount l c + (if m.col = c then 1 else 0) := by
  by_cases h : m.col = c <;> simp [colCount, List.filter_append, h]

theorem inv_step {g : Connect4} {p : Player} {col : Int} {row : Nat} {g' : Connect4}
    (hg : GravityInv g) (h : Connect4.play g p col = Except.ok (row, g')) :
    GravityInv g' := by
  obtain ⟨hle, hm⟩ := play_ok_inv h
  have hrow : row = colCount g.moves col.toNat := by
    rw [lowestEmpty_inv g _ hg] at hle
    by_cases hlt : colCount g.moves col.toNat < HEIGHT
    · rw [if_pos hlt] at hle
      exact (Option.some_inj.mp hle).symm
    · rw [if_neg hlt] at hle
      exact Option.noConfusion hle
  have hrH : row < HEIGHT := lowestEmpty_lt hle
  intro c r
  rw [hm, occupied_append, colCount_append]
  have hgc := hg c r
  by_cases hc : col.toNat = c
  · subst hc
    have hrH2 : colCount g.moves col.toNat < HEIGHT := hrow ▸ hrH
    simp only [Bool.or_eq_true, Bool.and_eq_true, beq_iff_eq, eq_self_iff_true, if_true,
      true_and]
    rw [hgc, hrow]
    omega
  · simp only [Bool.or_eq_true, Bool.and_eq_true, beq_iff_eq, if_neg hc, Nat.add_zero]
    rw [hgc]
    constructor
    · rintro (hx | ⟨hcc, -⟩)
      · exact hx
      · exact absurd hcc hc
    · exact fun hx => Or.inl hx

theorem reachable_inv {g : Connect4} (h : Reachable g) : GravityInv g := by
  induction h with
  | init =>
    intro c r
    simp [occupied, colCount, Connect4.init]
  | step hR hplay ih => exact inv_step ih hplay

/-- C8: gravity — for every game state reachable by legal moves, an accepted
`play(player, column)` returns a row equal to the number of marks already
recorded in that column before the move. -/
theorem C8_gravity {g : Connect4} {p : Player} {col : Int} {row : Nat} {g' : Connect4}
    (hr : Reachable g) (h : Connect4.play g p col = Except.ok (row, g')) :
    row = colCount g.moves col.toNat := by
  obtain ⟨hle, -⟩ := play_ok_inv h
  rw [lowestEmpty_inv g _ (reachable_inv hr)] at hle
  by_cases hlt : colCount g.moves col.toNat < HEIGHT
  · rw [if_pos hlt] at hle
    exact (Option.some_inj.mp hle).symm
  · rw [if_neg hlt] at hle
    exact Option.noConfusion hle

theorem C8_gravity_witness :
    (0 : Nat) = colCount Connect4.init.moves (3 : Int).toNat :=
  C8_gravity Reachable.init
    (show Connect4.play Connect4.init Player.P1 3 =
        Except.ok (0, ⟨[⟨Player.P1, 3, 0⟩], none⟩) by decide)
